import Mathlib

/-!
Verification development for the mutest report-viewer front-end scripts
(mutest-ui / mutest-inspector). The JavaScript sources are shallowly
embedded: JS strings become lists of characters, DOM element collections
become lists of records, and every DOM-mutating controller becomes a pure
function from document state to document state (navigations are returned
as an explicit list of target URLs).
-/

/-- JS strings are modelled as lists of characters. -/
abbrev Str := List Char

/-- The separator `'&'` between query segments. -/
def amp : Char := '&'

/-- The separator `'='` between a key and a value. -/
def eqc : Char := '='

namespace Query

/-- A plain JS object used as a string-keyed mapping, as built by
`Query.parser` (query.js). Entries are kept in property-insertion order;
a stored value of `none` models the JS value `undefined` (which
`queryObject[splitQuery[0]] = splitQuery[1]` stores when a segment has no
`'='`). -/
abbrev QueryObj := List (Str × Option Str)

/-- Property assignment `obj[k] = v` on a plain JS object: if the key is
already present its value is overwritten in place (keeping its position),
otherwise the new property is appended. -/
def objSet (o : QueryObj) (k : Str) (v : Option Str) : QueryObj :=
  if ∃ p ∈ o, p.1 = k then
    o.map (fun p => if p.1 = k then (p.1, v) else p)
  else o ++ [(k, v)]

/-- The `forEach` body of `Query.parser`: for a non-empty segment `q`,
split it on `'='` and store component 0 as the key and component 1 as the
value (`undefined`, i.e. `none`, when the segment contains no `'='`). -/
def parserStep (queryObject : QueryObj) (q : Str) : QueryObj :=
  if q ≠ [] then
    let splitQuery := q.splitOn eqc
    objSet queryObject (splitQuery.headD []) splitQuery[1]?
  else queryObject

/-- Embedding of `Query.parser` (mutest-ui/src/scripts/query.js, lines 50-61): split the
query string on `'&'` and run `parserStep` over the segments. -/
def parser (query : Str) : QueryObj :=
  (query.splitOn amp).foldl parserStep []

/-- Embedding of `Query.prototype.setAttribute` (query.js, lines 70-72). -/
def setAttribute (o : QueryObj) (attr : Str) (value : Str) : QueryObj :=
  objSet o attr (some value)

/-- Embedding of `Query.prototype.getAttribute` (query.js, lines 81-83): reading an
absent property yields `undefined` (`none`), as does reading a property
that stores `undefined`. -/
def getAttribute (o : QueryObj) (attr : Str) : Option Str :=
  (o.find? (fun p => p.1 == attr)).bind (fun p => p.2)

/-- Template-literal stringification of a JS value that is either a string
or `undefined`: `undefined` prints as the text `undefined`. -/
def jsTemplate : Option Str → Str
  | some s => s
  | none => ("undefined").toList

/-- Decimal value of a digit string: `some n` iff the string is non-empty
and all characters are decimal digits. -/
def decimalValue? (s : Str) : Option Nat :=
  if s = [] then none
  else
    s.foldl
      (fun acc c => acc.bind (fun n =>
        if c.isDigit then some (n * 10 + (c.toNat - 48)) else none))
      (some 0)

/-- ECMAScript array-index property key: a key counts as an integer index
iff it is the canonical decimal representation of some `n < 2^32 - 1`.
`Object.keys` enumerates such keys before all other string keys. -/
def isArrayIndexKey (k : Str) : Bool :=
  match decimalValue? k with
  | some n => decide ((Nat.repr n).toList = k ∧ n < 4294967295)
  | none => false

/-- Numeric value used to order array-index keys (irrelevant for other
keys, which are never compared by it). -/
def arrayIndexVal (k : Str) : Nat :=
  (decimalValue? k).getD 0

/-- Enumeration order of `Object.keys` on an ordinary JS object
(ECMAScript OrdinaryOwnPropertyKeys): integer array-index keys first in
ascending numeric order, then the remaining string keys in
property-insertion order. -/
def jsObjectKeysOrder (o : QueryObj) : QueryObj :=
  (List.insertionSort (fun p q => arrayIndexVal p.1 ≤ arrayIndexVal q.1)
      (o.filter (fun p => isArrayIndexKey p.1))) ++
    o.filter (fun p => !isArrayIndexKey p.1)

/-- Embedding of `Query.prototype.toString` (query.js, lines 101-103): join the
`key=value` renderings of all properties with `'&'`, in the order
`Object.keys` enumerates them. -/
def toString (o : QueryObj) : Str :=
  List.intercalate [amp]
    ((jsObjectKeysOrder o).map (fun p => p.1 ++ eqc :: jsTemplate p.2))

end Query

/-! ### DOM document model for mutations.js

The document is a flat list of element records; an element is identified by
its position in the list, so DOM mutation becomes rebuilding the list with
the touched positions updated. Only the data the scripts read or write is
modelled: `id`, tag name, and `classList`. -/

/-- The `hidden` visibility class. -/
def hiddenClass : Str := ("hidden").toList

/-- The `selected` marker class. -/
def selectedClass : Str := ("selected").toList

/-- The `tbody` tag name. -/
def tbodyTag : Str := ("tbody").toList

/-- A DOM element: its `id` attribute (empty when absent), tag name, and
class list. -/
structure Elem where
  id : Str
  tag : Str
  classList : List Str
deriving DecidableEq, Repr

/-- A document: the elements in document order. -/
structure Doc where
  elems : List Elem
deriving DecidableEq, Repr

/-- Embedding of `DOMTokenList.add`: appends the token unless already present. -/
def classAdd (l : List Str) (c : Str) : List Str :=
  if c ∈ l then l else l ++ [c]

/-- Embedding of `DOMTokenList.remove`: removes the token. -/
def classRemove (l : List Str) (c : Str) : List Str :=
  l.filter (fun x => x ≠ c)

/-- Replace the element at position `j` (identity when out of range). -/
def listModify {α : Type} (l : List α) (j : Nat) (f : α → α) : List α :=
  match l, j with
  | [], _ => []
  | x :: rest, 0 => f x :: rest
  | x :: rest, n + 1 => x :: listModify rest n f

/-- Position of the first element with the given id. -/
def elemIdxWithId (i : Str) : List Elem → Option Nat
  | [] => none
  | e :: rest => if e.id = i then some 0 else (elemIdxWithId i rest).map Nat.succ

/-- Embedding of `document.getElementById`: the first element whose ID is `i`; the empty
string matches no element. -/
def getElementById (d : Doc) (i : Str) : Option Nat :=
  if i = [] then none else elemIdxWithId i d.elems

/-- The class list of the element at position `j` (empty when out of range). -/
def classesAt (d : Doc) (j : Nat) : List Str :=
  ((d.elems.get? j).map Elem.classList).getD []

/-- The tag of the element at position `j` (empty when out of range). -/
def tagAt (d : Doc) (j : Nat) : Str :=
  ((d.elems.get? j).map Elem.tag).getD []

/-- The id of the element at position `j` (empty when out of range). -/
def idAt (d : Doc) (j : Nat) : Str :=
  ((d.elems.get? j).map Elem.id).getD []

/-- Mutate the element at position `j` of the document. -/
def modifyAt (d : Doc) (j : Nat) (f : Elem → Elem) : Doc :=
  ⟨listModify d.elems j f⟩

/-- Mutate only the class list of the element at position `j` (the shape of
every single-element DOM write in these scripts: `el.classList.add` /
`el.classList.remove`). -/
def modifyClassesAt (d : Doc) (j : Nat) (g : List Str → List Str) : Doc :=
  modifyAt d j (fun e => { e with classList := g e.classList })

/-- Embedding of `hideMutationsWithClassName` (mutations.js, lines 37-39): add `hidden`
to every element carrying the given class. -/
def hideMutationsWithClassName (d : Doc) (className : Str) : Doc :=
  ⟨d.elems.map (fun e =>
    if className ∈ e.classList then { e with classList := classAdd e.classList hiddenClass }
    else e)⟩

/-- Embedding of `[...document.getElementsByTagName('tbody')].map(e => e.classList.remove('selected'))`
(mutations.js, line 21). -/
def unselectTbodys (d : Doc) : Doc :=
  ⟨d.elems.map (fun e =>
    if e.tag = tbodyTag then { e with classList := classRemove e.classList selectedClass }
    else e)⟩

/-- Embedding of `openFile` (mutest-ui/src/scripts/files.js, lines 6-12). The source
iterates `for (let key in Object.keys(params))`: a JS `for...in` loop over
an ARRAY visits its indices as the strings "0", "1", ..., so `key` ranges
over index strings and `params[key]` looks those index strings up as
property names on `params` (yielding `undefined` unless `params` happens to
own such a property). `params` is modelled as the list of its own
enumerable properties in order, each value given by its template-literal
stringification. -/
def openFile (filePath : Str) (params : List (Str × Str)) : Str :=
  let keys := params.map Prod.fst
  let forInKeys := (List.range keys.length).map (fun n => (Nat.repr n).toList)
  let formattedParams := forInKeys.map (fun key =>
    key ++ eqc :: (match params.lookup key with
      | some v => v
      | none => ("undefined").toList))
  filePath ++ '?' :: List.intercalate [amp] formattedParams

/-- The own enumerable properties of a `Query` class instance: the
constructor sets exactly one field, `query`, holding the parsed mapping
object; an object stringifies to `[object Object]` in a template literal. -/
def queryInstanceProps (_q : Query.QueryObj) : List (Str × Str) :=
  [(("query").toList, ("[object Object]").toList)]

/-- The constant `MUTATION_ID_ATTR` (mutations.js, line 4). -/
def MUTATION_ID_ATTR : Str := ("mutation_id").toList

/-- The try block of `openMutation` (mutest-inspector mutations.js,
lines 14-25). `.error` carries the document state at the point where the
body throws: looking up a missing id makes `el.classList` throw a TypeError
before any mutation; a failure in the final scroll (modelled by the
`scrollOk` flag, since the claims treat ANY error in the body as the single
not-found signal) throws after the class mutations have been applied. -/
def openMutationTryBody (scrollOk : Bool) (d : Doc) (mutationId : Str)
    (autoscroll : Bool) : Except Doc Doc :=
  match getElementById d mutationId with
  | none => .error d
  | some idx =>
    let d1 :=
      if hiddenClass ∈ classesAt d idx then
        let classUuid := (classesAt d idx).headD []
        modifyClassesAt (hideMutationsWithClassName d classUuid) idx
          (fun l => classRemove l hiddenClass)
      else d
    let d2 := unselectTbodys d1
    let d3 := modifyClassesAt d2 idx (fun l => classAdd l selectedClass)
    if autoscroll then (if scrollOk then .ok d3 else .error d3) else .ok d3

/-- The catch block of `openMutation` (mutest-inspector mutations.js,
lines 26-34): build a `Query` holding `mutation_id = mutationId`; if
`autoRedirect`, navigate via `openFile(filePath, query)` (the second
component lists the navigation URLs performed), otherwise only log. -/
def openMutationCatch (d : Doc) (mutationId filePath : Str)
    (autoRedirect : Bool) : Doc × List Str :=
  let query := Query.setAttribute (Query.parser []) MUTATION_ID_ATTR mutationId
  if autoRedirect then (d, [openFile filePath (queryInstanceProps query)])
  else (d, [])

/-- Embedding of `openMutation` (mutest-inspector mutations.js, lines 13-35), with the
try/catch resolved: any `.error` of the try body is routed to the catch
block. -/
def openMutationGen (scrollOk : Bool) (d : Doc) (mutationId filePath : Str)
    (autoscroll autoRedirect : Bool) : Doc × List Str :=
  match openMutationTryBody scrollOk d mutationId autoscroll with
  | .ok dOk => (dOk, [])
  | .error dErr => openMutationCatch dErr mutationId filePath autoRedirect

/-- Whole-function embedding of `openMutation` at the exception level: an
exception NOT caught inside the function would surface as `.error`. -/
def openMutationJS (scrollOk : Bool) (d : Doc) (mutationId filePath : Str)
    (autoscroll autoRedirect : Bool) : Except Doc (Doc × List Str) :=
  match openMutationTryBody scrollOk d mutationId autoscroll with
  | .ok dOk => .ok (dOk, [])
  | .error dErr => .ok (openMutationCatch dErr mutationId filePath autoRedirect)

/-- Embedding of `openMutation(mutationId, filePath)` with the default arguments
(`autoscroll = true`, `autoRedirect = true`) and the scroll succeeding
(`scrollIntoView()` does not throw). -/
def openMutation (d : Doc) (mutationId filePath : Str) : Doc × List Str :=
  openMutationGen true d mutationId filePath true true

/-- The hide-all-then-reveal-chosen sequence (the specification sentence
`selectOnly(group, chosen)`), exactly as it occurs in `openMutation`
lines 17-19: `hideMutationsWithClassName(classUuid)` followed by removing
`hidden` from the chosen element. -/
def selectOnly (d : Doc) (className : Str) (chosen : Nat) : Doc :=
  modifyClassesAt (hideMutationsWithClassName d className) chosen
    (fun l => classRemove l hiddenClass)

/-! ### Code collapser (mutest-inspector collapser.js) -/

/-- Embedding of `style.display` value "none". -/
def noneDisplay : Str := ("none").toList

/-- Class `detection-status`. -/
def detectionStatusClass : Str := ("detection-status").toList

/-- Class `numbers`. -/
def numbersClass : Str := ("numbers").toList

/-- Class `new`. -/
def newClass : Str := ("new").toList

/-- Class `expand-button`. -/
def expandButtonClass : Str := ("expand-button").toList

/-- A table cell: its class list and inner text. -/
structure Td where
  classes : List Str
  innerText : Str
deriving DecidableEq, Repr

/-- A table row: its `style.display` (`[]` is the default) and cells. -/
structure Tr where
  display : Str
  tds : List Td
deriving DecidableEq, Repr

/-- A code block: a `tbody` with its class list and child rows. -/
structure Tbody where
  classes : List Str
  rows : List Tr
deriving DecidableEq, Repr

/-- Embedding of `getExpandButtonRow` (collapser.js, lines 1-17): a fresh `tr` holding
two empty marker cells and the clickable `expand-button` cell. -/
def getExpandButtonRow : Tr :=
  { display := []
    tds := [ { classes := [detectionStatusClass, newClass], innerText := [] }
           , { classes := [numbersClass, newClass], innerText := [] }
           , { classes := [expandButtonClass]
             , innerText := ("Click to expand code").toList } ] }

/-- Apply `f` to every row together with its index, starting at index `i`. -/
def mapRowsFrom (f : Nat → Tr → Tr) : Nat → List Tr → List Tr
  | _, [] => []
  | i, r :: rest => f i r :: mapRowsFrom f (i + 1) rest

/-- Embedding of `insertBefore(newRow, childNodes[n])`: insert at position `n`. -/
def insertRowAt (l : List Tr) (n : Nat) (r : Tr) : List Tr :=
  l.take n ++ r :: l.drop n

/-- The per-section work of `collapse_and_show` (collapser.js, lines 24-40),
including the `filter` guard (no classes and more than 15 child rows): set
`display: none` on the rows with indices `5 <= i <= childNodes.length - 6`,
then insert the expand-affordance row before `childNodes[length - 6]`. -/
def collapseSection (s : Tbody) : Tbody :=
  if s.classes = [] ∧ 15 < s.rows.length then
    let endIdx := s.rows.length - 6
    let hiddenRows := mapRowsFrom
      (fun i r => if 5 ≤ i ∧ i ≤ endIdx then { r with display := noneDisplay } else r)
      0 s.rows
    { s with rows := insertRowAt hiddenRows endIdx getExpandButtonRow }
  else s

/-- Embedding of `collapse_and_show(el)` (collapser.js, lines 23-44): collapse every
qualifying `tbody` of the container, then remove `hidden` from the
class list of the container itself. -/
def collapse_and_show (elClasses : List Str) (sections : List Tbody) :
    List Str × List Tbody :=
  (classRemove elClasses hiddenClass, sections.map collapseSection)

/-- Embedding of the click callback of the expand affordance (collapser.js, lines 34-39):
`for (let node of section.childNodes) { node.style.display = ""; e.target.remove(); }`
resets the display of every child of the section, and removes `e.target` —
the `expand-button` cell created by `getExpandButtonRow` — from its parent
row (the repeated removal inside the loop is a no-op after the first
iteration, and removing the cell does not change `section.childNodes`).
`btnRowIdx` is the position of the affordance row inside the section. -/
def expandCallback (s : Tbody) (btnRowIdx : Nat) : Tbody :=
  { s with rows :=
      (listModify (s.rows.map (fun r => { r with display := [] })) btnRowIdx
        (fun r => { r with tds := r.tds.filter (fun td => expandButtonClass ∉ td.classes) })) }

/-! ### Search filter (mutest-inspector search.js) -/

/-- Embedding of `haystack.includes(needle)`: JS substring containment. -/
def jsIncludes (haystack needle : Str) : Bool :=
  decide (needle <:+: haystack)

/-- A searchable row (class `search-mutation`): its `data-file-path`
attribute, the class list of its first child, the inner text of its second
and third children, and the class list of the row itself. -/
structure SearchRow where
  dataFilePath : Str
  firstChildClasses : List Str
  secondChildText : Str
  thirdChildText : Str
  classes : List Str
deriving DecidableEq, Repr

/-- A `SearchRow` with every field empty. -/
def emptySearchRow : SearchRow :=
  { dataFilePath := [], firstChildClasses := [], secondChildText := []
    thirdChildText := [], classes := [] }

/-- Embedding of `exactSearch` (search.js, lines 24-30): exact substring match of the
query against the file path attribute, the trailing class token of the
first child (`classList[classList.length - 1]`), and the two text fields. -/
def exactSearch (query : Str) (el : SearchRow) : Bool :=
  jsIncludes el.dataFilePath query ||
  jsIncludes (el.firstChildClasses.getLastD []) query ||
  jsIncludes el.secondChildText query ||
  jsIncludes el.thirdChildText query

/-- Embedding of `regexSearch` (search.js, lines 9-16): `re.test` for the user-supplied
pattern is JS regular-expression semantics, taken as an oracle parameter
`test`. -/
def regexSearch (test : Str → Str → Bool) (regex : Str) (el : SearchRow) : Bool :=
  test regex el.dataFilePath ||
  test regex (el.firstChildClasses.getLastD []) ||
  test regex el.secondChildText ||
  test regex el.thirdChildText

/-- Embedding of `search(query, regex)` (search.js, lines 32-43): for every
`search-mutation` row, reveal it on an exact match, otherwise reveal it on
a regex match when `regex` is set, otherwise hide it. -/
def search (test : Str → Str → Bool) (query : Str) (regex : Bool)
    (rows : List SearchRow) : List SearchRow :=
  rows.map (fun e =>
    if exactSearch query e then { e with classes := classRemove e.classes hiddenClass }
    else if regex && regexSearch test query e then
      { e with classes := classRemove e.classes hiddenClass }
    else { e with classes := classAdd e.classes hiddenClass })

-- Concrete evaluations exercising the embedding on small inputs.
example : Query.parser (("a=1&b=2").toList) =
    [(("a").toList, some (("1").toList)), (("b").toList, some (("2").toList))] := by decide

example : Query.parser (("a=b=c").toList) = [(("a").toList, some (("b").toList))] := by decide

example : Query.parser (("flag").toList) = [(("flag").toList, none)] := by decide

example : Query.toString (Query.parser (("flag").toList)) = ("flag=undefined").toList := by decide

example : Query.toString (Query.parser (("a=1&a=2").toList)) = ("a=2").toList := by decide

example : Query.toString (Query.parser (("b=1&2=x").toList)) = ("2=x&b=1").toList := by decide

example : openFile (("foo.html").toList) [(("mutation_id").toList, ("42").toList)] =
    ("foo.html?0=undefined").toList := by decide

example : openMutation ⟨[]⟩ (("42").toList) (("foo.html").toList) =
    (⟨[]⟩, [("foo.html?0=undefined").toList]) := by decide

example :
    ((collapseSection ⟨[], List.replicate 20 ⟨[], []⟩⟩).rows.filter
      (fun r => r.display = noneDisplay)).length = 10 := by decide

example : (collapseSection ⟨[], List.replicate 20 ⟨[], []⟩⟩).rows.length = 21 := by decide

example : (expandCallback (collapseSection ⟨[], List.replicate 20 ⟨[], []⟩⟩) 14).rows.length = 21 := by
  decide

example :
    search (fun _ _ => false) (("abc").toList) false
      [{ emptySearchRow with dataFilePath := ("src/abc.rs").toList }] =
      [{ emptySearchRow with dataFilePath := ("src/abc.rs").toList }] := by decide

/-! ## Supporting lemmas -/

theorem splitOn_eq_single {sep : Char} {s : Str} (h : sep ∉ s) :
    s.splitOn sep = [s] := by
  refine List.splitOnP_eq_single _ _ ?_
  intro x hx hbeq
  exact h (by rwa [eq_of_beq hbeq] at hx)

theorem splitOn_sep_eq_pair {sep : Char} {k v : Str} (hk : sep ∉ k) (hv : sep ∉ v) :
    (k ++ sep :: v).splitOn sep = [k, v] := by
  have h1 : ∀ x ∈ k, ¬((x == sep) = true) := by
    intro x hx hbeq
    exact hk (by rwa [eq_of_beq hbeq] at hx)
  have h2 : v.splitOnP (· == sep) = [v] := by
    refine List.splitOnP_eq_single _ _ ?_
    intro x hx hbeq
    exact hv (by rwa [eq_of_beq hbeq] at hx)
  show (k ++ sep :: v).splitOnP (· == sep) = [k, v]
  rw [List.splitOnP_first _ _ h1 sep (beq_self_eq_true sep) v, h2]

theorem dropWhile_head_not {α : Type} {p : α → Bool} :
    ∀ {l : List α} {a : α} {t : List α}, l.dropWhile p = a :: t → p a = false := by
  intro l
  induction l with
  | nil =>
    intro a t h
    simp [List.dropWhile] at h
  | cons x xs ih =>
    intro a t h
    by_cases hx : p x
    · rw [List.dropWhile_cons_of_pos hx] at h
      exact ih h
    · rw [List.dropWhile_cons_of_neg hx] at h
      cases h
      simpa using hx

theorem splitOn_eq_takeWhile_cons (sep : Char) (s : Str) :
    s.splitOn sep =
      s.takeWhile (fun c => c ≠ sep) ::
        (if sep ∈ s then ((s.dropWhile (fun c => c ≠ sep)).tail).splitOn sep else []) := by
  by_cases hmem : sep ∈ s
  · rw [if_pos hmem]
    have hdw : s.dropWhile (fun c => decide (c ≠ sep)) ≠ [] := by
      intro hnil
      have := List.dropWhile_eq_nil_iff.mp hnil sep hmem
      simp at this
    obtain ⟨a, t, hat⟩ := List.exists_cons_of_ne_nil hdw
    have ha : a = sep := by
      have h0 := dropWhile_head_not hat
      simpa using h0
    have hdecomp :
        s = s.takeWhile (fun c => decide (c ≠ sep)) ++ sep :: t := by
      conv_lhs =>
        rw [← List.takeWhile_append_dropWhile (p := fun c => decide (c ≠ sep)) (l := s)]
      rw [hat, ha]
    have htk : ∀ x ∈ s.takeWhile (fun c => decide (c ≠ sep)), ¬((x == sep) = true) := by
      intro x hx hbeq
      have := List.mem_takeWhile_imp hx
      simp [eq_of_beq hbeq] at this
    have htail : (s.dropWhile (fun c => decide (c ≠ sep))).tail = t := by
      rw [hat]
      rfl
    conv_lhs => rw [hdecomp]
    rw [htail]
    show (_ ++ sep :: _).splitOnP (· == sep) = _
    rw [List.splitOnP_first _ _ htk sep (beq_self_eq_true sep)]
    rfl
  · rw [if_neg hmem, splitOn_eq_single hmem]
    have : s.takeWhile (fun c => decide (c ≠ sep)) = s := by
      rw [List.takeWhile_eq_self_iff]
      intro x hx
      simp only [decide_eq_true_eq]
      intro hxs
      exact hmem (hxs ▸ hx)
    rw [this]

theorem splitOn_headD (sep : Char) (s : Str) :
    (s.splitOn sep).headD [] = s.takeWhile (fun c => c ≠ sep) := by
  rw [splitOn_eq_takeWhile_cons sep s]
  rfl

theorem splitOn_get1 (sep : Char) (s : Str) :
    (s.splitOn sep)[1]? =
      if sep ∈ s then
        some (((s.dropWhile (fun c => c ≠ sep)).tail).takeWhile (fun c => c ≠ sep))
      else none := by
  rw [splitOn_eq_takeWhile_cons sep s]
  by_cases hmem : sep ∈ s
  · rw [if_pos hmem, if_pos hmem]
    rw [splitOn_eq_takeWhile_cons sep ((s.dropWhile (fun c => c ≠ sep)).tail)]
    simp
  · rw [if_neg hmem, if_neg hmem]
    rfl

theorem objSet_fresh {o : Query.QueryObj} {k : Str} (h : ∀ p ∈ o, p.1 ≠ k) (v : Option Str) :
    Query.objSet o k v = o ++ [(k, v)] := by
  have hne : ¬∃ p ∈ o, p.1 = k := by
    rintro ⟨p, hp, hk⟩
    exact h p hp hk
  simp only [Query.objSet, if_neg hne]

theorem getAttribute_objSet (o : Query.QueryObj) (k : Str) (v : Option Str) :
    Query.getAttribute (Query.objSet o k v) k = v := by
  unfold Query.getAttribute Query.objSet
  by_cases h : ∃ p ∈ o, p.1 = k
  · rw [if_pos h]
    induction o with
    | nil => simp at h
    | cons p rest ih =>
      by_cases hp : p.1 = k
      · simp [List.find?, hp]
      · have h' : ∃ q ∈ rest, q.1 = k := by
          rcases h with ⟨q, hq, hqk⟩
          rcases List.mem_cons.mp hq with rfl | hmem
          · exact absurd hqk hp
          · exact ⟨q, hmem, hqk⟩
        have hbeq : (p.1 == k) = false := by
          simpa using hp
        simpa [List.find?, hp, hbeq] using ih h'
  · rw [if_neg h]
    induction o with
    | nil => simp [List.find?]
    | cons p rest ih =>
      have hp : p.1 ≠ k := by
        intro hk
        exact h ⟨p, List.mem_cons_self p rest, hk⟩
      have h' : ¬∃ q ∈ rest, q.1 = k := by
        rintro ⟨q, hq, hqk⟩
        exact h ⟨q, List.mem_cons_of_mem p hq, hqk⟩
      have hbeq : (p.1 == k) = false := by
        simpa using hp
      simpa [List.find?, hbeq] using ih h'

theorem jsObjectKeysOrder_singleton (p : Str × Option Str) :
    Query.jsObjectKeysOrder [p] = [p] := by
  unfold Query.jsObjectKeysOrder
  by_cases h : Query.isArrayIndexKey p.1
  · simp [h, List.insertionSort, List.orderedInsert]
  · simp [h]

theorem jsObjectKeysOrder_perm (o : Query.QueryObj) :
    (Query.jsObjectKeysOrder o).Perm o := by
  unfold Query.jsObjectKeysOrder
  have h1 := List.perm_insertionSort
    (fun p q : Str × Option Str => Query.arrayIndexVal p.1 ≤ Query.arrayIndexVal q.1)
    (o.filter (fun p => Query.isArrayIndexKey p.1))
  exact (h1.append (List.Perm.refl _)).trans
    (List.filter_append_perm (fun p => Query.isArrayIndexKey p.1) o)

theorem find?_eq_some_of_unique :
    ∀ {o : Query.QueryObj} {k : Str} {p : Str × Option Str},
      (o.map Prod.fst).Nodup → p ∈ o → p.1 = k →
      o.find? (fun q => q.1 == k) = some p := by
  intro o
  induction o with
  | nil =>
    intro k p _ hp _
    simp at hp
  | cons q rest ih =>
    intro k p hnd hp hpk
    have hnd2 : (q.1 :: rest.map Prod.fst).Nodup := by
      rw [List.map_cons] at hnd
      exact hnd
    by_cases hq : q.1 = k
    · have hqp : p = q := by
        rcases List.mem_cons.mp hp with rfl | hmem
        · rfl
        · exfalso
          have hhead : q.1 ∉ rest.map Prod.fst := (List.nodup_cons.mp hnd2).1
          have : p.1 ∈ rest.map Prod.fst := List.mem_map_of_mem Prod.fst hmem
          rw [hpk, ← hq] at this
          exact hhead this
      subst hqp
      have hbeq : (p.1 == k) = true := by simpa using hq
      simp [List.find?, hbeq]
    · have hbeq : (q.1 == k) = false := by simpa using hq
      have hp' : p ∈ rest := by
        rcases List.mem_cons.mp hp with rfl | hmem
        · exact absurd hpk hq
        · exact hmem
      have hnd' : (rest.map Prod.fst).Nodup := (List.nodup_cons.mp hnd2).2
      rw [List.find?_cons_of_neg _ (by simp [hbeq])]
      exact ih hnd' hp' hpk

theorem getAttribute_eq_of_perm {o o' : Query.QueryObj}
    (hperm : o.Perm o') (hnodup : (o.map Prod.fst).Nodup) (k : Str) :
    Query.getAttribute o k = Query.getAttribute o' k := by
  have hnodup' : (o'.map Prod.fst).Nodup := (hperm.map Prod.fst).nodup hnodup
  by_cases h : ∃ p ∈ o, p.1 = k
  · obtain ⟨p, hp, hpk⟩ := h
    unfold Query.getAttribute
    rw [find?_eq_some_of_unique hnodup hp hpk,
      find?_eq_some_of_unique hnodup' (hperm.mem_iff.mp hp) hpk]
  · have h1 : o.find? (fun q => q.1 == k) = none := by
      rw [List.find?_eq_none]
      intro x hx hbeq
      exact h ⟨x, hx, by simpa using hbeq⟩
    have h2 : o'.find? (fun q => q.1 == k) = none := by
      rw [List.find?_eq_none]
      intro x hx hbeq
      exact h ⟨x, hperm.mem_iff.mpr hx, by simpa using hbeq⟩
    unfold Query.getAttribute
    rw [h1, h2]

/-! ## Claims -/

/-- C8 (corrected): `parse` splits the text on `'&'`, ignores empty
segments, and maps each non-empty segment to the key given by the text
before the first `'='` and the value given by the text strictly between the
first and the second `'='` (`undefined` when the segment has no `'='`;
anything after a second `'='` is discarded, because the JS `split('=')` is
unlimited); a later segment with an already-seen key overwrites the stored
value (`getAttribute` then yields the newly stored value). -/
theorem C8_parse_characterization (text : Str) :
    Query.parser text =
      (text.splitOn amp).foldl
        (fun obj seg =>
          if seg = [] then obj
          else
            Query.objSet obj (seg.takeWhile (fun c => c ≠ eqc))
              (if eqc ∈ seg then
                some (((seg.dropWhile (fun c => c ≠ eqc)).tail).takeWhile (fun c => c ≠ eqc))
              else none))
        [] ∧
    ∀ (o : Query.QueryObj) (k : Str) (v : Option Str),
      Query.getAttribute (Query.objSet o k v) k = v := by
  constructor
  · unfold Query.parser
    apply List.foldl_ext
    intro obj seg _
    by_cases h : seg = []
    · simp [Query.parserStep, h]
    · have h' : seg ≠ [] := h
      simp only [Query.parserStep, if_pos h', if_neg h]
      rw [splitOn_headD, splitOn_get1]
  · exact getAttribute_objSet

/-- C8 counterexample: the claim says the value of the segment `a=b=c` is
`b=c` (split on the FIRST `'='` only); the code stores `b`. -/
theorem C8_counterexample :
    Query.getAttribute (Query.parser (("a=b=c").toList)) (("a").toList) =
      some (("b").toList) ∧
    some (("b").toList) ≠ some (("b=c").toList) := by decide

/-- C10 (confirmed): a non-empty segment without `'='` is stored as a key
mapped to the JS value `undefined`; `getAttribute` on that key yields
`undefined` exactly as for an absent key, the key is nevertheless present
in the mapping, and `toString` renders the pair as `<segment>=undefined`. -/
theorem C10_undefined_value (seg : Str) (hne : seg ≠ []) (hamp : amp ∉ seg)
    (heq : eqc ∉ seg) :
    Query.parser seg = [(seg, none)] ∧
    Query.getAttribute (Query.parser seg) seg = none ∧
    Query.getAttribute [] seg = none ∧
    Query.toString (Query.parser seg) = seg ++ eqc :: ("undefined").toList := by
  have hp : Query.parser seg = [(seg, none)] := by
    unfold Query.parser
    rw [splitOn_eq_single hamp]
    show Query.parserStep [] seg = [(seg, none)]
    unfold Query.parserStep
    simp only [hne, ne_eq, not_false_eq_true, if_true]
    rw [splitOn_eq_single heq]
    simp [Query.objSet]
  refine ⟨hp, ?_, ?_, ?_⟩
  · rw [hp]
    simp [Query.getAttribute, List.find?]
  · rfl
  · rw [hp]
    unfold Query.toString
    rw [jsObjectKeysOrder_singleton]
    simp [Query.jsTemplate, List.intercalate]

theorem parserStep_foldl_fresh :
    ∀ (m : List (Str × Str)) (acc : Query.QueryObj),
      (m.map Prod.fst).Nodup →
      (∀ p ∈ m, eqc ∉ p.1 ∧ eqc ∉ p.2) →
      (∀ p ∈ m, ∀ q ∈ acc, q.1 ≠ p.1) →
      (m.map (fun p => p.1 ++ eqc :: p.2)).foldl Query.parserStep acc =
        acc ++ m.map (fun p => (p.1, some p.2)) := by
  intro m
  induction m with
  | nil =>
    intro acc _ _ _
    simp
  | cons p rest ih =>
    intro acc hnodup hfree hacc
    simp only [List.map_cons, List.foldl_cons]
    have hstep : Query.parserStep acc (p.1 ++ eqc :: p.2) = acc ++ [(p.1, some p.2)] := by
      unfold Query.parserStep
      have hne : p.1 ++ eqc :: p.2 ≠ [] := by simp
      rw [if_pos hne]
      obtain ⟨hk, hv⟩ := hfree p (List.mem_cons_self p rest)
      show Query.objSet acc (((p.1 ++ eqc :: p.2).splitOn eqc).headD [])
          ((p.1 ++ eqc :: p.2).splitOn eqc)[1]? = _
      rw [splitOn_sep_eq_pair hk hv]
      show Query.objSet acc p.1 (some p.2) = _
      exact objSet_fresh (fun q hq => hacc p (List.mem_cons_self p rest) q hq) (some p.2)
    rw [hstep]
    have hnodup2 : (p.1 :: rest.map Prod.fst).Nodup := by
      rw [List.map_cons] at hnodup
      exact hnodup
    have hnodup' : (rest.map Prod.fst).Nodup := (List.nodup_cons.mp hnodup2).2
    have hp1 : p.1 ∉ rest.map Prod.fst := (List.nodup_cons.mp hnodup2).1
    rw [ih (acc ++ [(p.1, some p.2)]) hnodup'
      (fun q hq => hfree q (List.mem_cons_of_mem p hq))
      ?fresh]
    · simp
    case fresh =>
      intro q hq r hr
      rcases List.mem_append.mp hr with h1 | h2
      · exact hacc q (List.mem_cons_of_mem p hq) r h1
      · have hr2 : r = (p.1, some p.2) := by simpa using h2
        subst hr2
        intro heq
        exact hp1 (heq ▸ List.mem_map_of_mem Prod.fst hq)

theorem parserStep_foldl_fresh_obj :
    ∀ (M : Query.QueryObj) (acc : Query.QueryObj),
      (M.map Prod.fst).Nodup →
      (∀ p ∈ M, ∃ v, p.2 = some v ∧ eqc ∉ p.1 ∧ eqc ∉ v) →
      (∀ p ∈ M, ∀ q ∈ acc, q.1 ≠ p.1) →
      (M.map (fun p => p.1 ++ eqc :: Query.jsTemplate p.2)).foldl Query.parserStep acc =
        acc ++ M := by
  intro M
  induction M with
  | nil =>
    intro acc _ _ _
    simp
  | cons p rest ih =>
    intro acc hnodup hvals hacc
    obtain ⟨v, hv, hk, hvv⟩ := hvals p (List.mem_cons_self p rest)
    simp only [List.map_cons, List.foldl_cons]
    have hstep : Query.parserStep acc (p.1 ++ eqc :: Query.jsTemplate p.2) = acc ++ [p] := by
      rw [hv]
      show Query.parserStep acc (p.1 ++ eqc :: v) = acc ++ [p]
      unfold Query.parserStep
      have hne : p.1 ++ eqc :: v ≠ [] := by simp
      rw [if_pos hne]
      show Query.objSet acc (((p.1 ++ eqc :: v).splitOn eqc).headD [])
          ((p.1 ++ eqc :: v).splitOn eqc)[1]? = _
      rw [splitOn_sep_eq_pair hk hvv]
      show Query.objSet acc p.1 (some v) = _
      rw [objSet_fresh (fun q hq => hacc p (List.mem_cons_self p rest) q hq) (some v),
        ← hv]
    rw [hstep]
    have hnodup2 : (p.1 :: rest.map Prod.fst).Nodup := by
      rw [List.map_cons] at hnodup
      exact hnodup
    have hnodup' : (rest.map Prod.fst).Nodup := (List.nodup_cons.mp hnodup2).2
    have hp1 : p.1 ∉ rest.map Prod.fst := (List.nodup_cons.mp hnodup2).1
    rw [ih (acc ++ [p]) hnodup'
      (fun q hq => hvals q (List.mem_cons_of_mem p hq))
      ?fresh]
    · simp
    case fresh =>
      intro q hq r hr
      rcases List.mem_append.mp hr with h1 | h2
      · exact hacc q (List.mem_cons_of_mem p hq) r h1
      · have hr2 : r = p := by simpa using h2
        subst hr2
        intro heq
        exact hp1 (heq ▸ List.mem_map_of_mem Prod.fst hq)

/-- C1 (corrected): for every string-valued mapping with pairwise-distinct
keys and no `'&'`/`'='` inside keys or values, `parse (serialize m)` equals
`m` as a mapping — the resulting pair list is a permutation of the pairs of
`m` and `getAttribute` agrees with `m` on every key (only order-insensitive
equality holds of the pair list, because `Object.keys` enumerates
integer-like keys first: serializing the parse of `b=1&2=x` yields
`2=x&b=1`); and for every query string `s` that is an `'&'`-join of
`key=value` segments of such a mapping, `serialize (parse s)` contains
exactly the same key/value segments as `s`, order-insensitively (a
permutation of the segments). The original claim, over arbitrary strings
with clean tokens, fails for duplicate keys — see the counterexample. -/
theorem C1_roundtrip (m : List (Str × Str))
    (hnodup : (m.map Prod.fst).Nodup)
    (hfree : ∀ p ∈ m, amp ∉ p.1 ∧ eqc ∉ p.1 ∧ amp ∉ p.2 ∧ eqc ∉ p.2) :
    (Query.parser (Query.toString (m.map (fun p => (p.1, some p.2))))).Perm
      (m.map (fun p => (p.1, some p.2))) ∧
    (∀ k, Query.getAttribute
        (Query.parser (Query.toString (m.map (fun p => (p.1, some p.2))))) k =
      Query.getAttribute (m.map (fun p => (p.1, some p.2))) k) ∧
    ((Query.toString (Query.parser (List.intercalate [amp]
        (m.map (fun p => p.1 ++ eqc :: p.2))))).splitOn amp).Perm
      ((List.intercalate [amp] (m.map (fun p => p.1 ++ eqc :: p.2))).splitOn amp) := by
  by_cases hm : m = []
  · subst hm
    exact ⟨List.Perm.refl _, fun _ => rfl, List.Perm.refl _⟩
  · have hMne : m.map (fun p => (p.1, some p.2)) ≠ [] := by simpa using hm
    have hkeysM : (m.map (fun p => (p.1, some p.2))).map Prod.fst = m.map Prod.fst := by
      rw [List.map_map]
      rfl
    have hnodupM : ((m.map (fun p => (p.1, some p.2))).map Prod.fst).Nodup := by
      rw [hkeysM]
      exact hnodup
    have hperm := jsObjectKeysOrder_perm (m.map (fun p => (p.1, some p.2)))
    have hnodupK :
        ((Query.jsObjectKeysOrder (m.map (fun p => (p.1, some p.2)))).map Prod.fst).Nodup :=
      ((hperm.map Prod.fst).symm).nodup hnodupM
    have hKmem : ∀ p ∈ Query.jsObjectKeysOrder (m.map (fun p => (p.1, some p.2))),
        ∃ r ∈ m, p = (r.1, some r.2) := by
      intro p hp
      have hpM := hperm.mem_iff.mp hp
      rcases List.mem_map.mp hpM with ⟨r, hr, rfl⟩
      exact ⟨r, hr, rfl⟩
    have hxfree : ∀ l ∈ (Query.jsObjectKeysOrder (m.map (fun p => (p.1, some p.2)))).map
        (fun p => p.1 ++ eqc :: Query.jsTemplate p.2), amp ∉ l := by
      intro l hl
      rcases List.mem_map.mp hl with ⟨p, hp, rfl⟩
      obtain ⟨r, hr, rfl⟩ := hKmem p hp
      obtain ⟨h1, _, h3, _⟩ := hfree r hr
      intro hmem
      rcases List.mem_append.mp hmem with hmk | hmv
      · exact h1 hmk
      · rcases List.mem_cons.mp hmv with heqamp | hmv2
        · exact absurd heqamp (by decide)
        · exact h3 hmv2
    have hKne : (Query.jsObjectKeysOrder (m.map (fun p => (p.1, some p.2)))).map
        (fun p => p.1 ++ eqc :: Query.jsTemplate p.2) ≠ [] := by
      intro hcon
      rw [List.map_eq_nil] at hcon
      have hlen := hperm.length_eq
      rw [hcon] at hlen
      exact hMne (List.eq_nil_of_length_eq_zero hlen.symm)
    have hsplitK : (Query.toString (m.map (fun p => (p.1, some p.2)))).splitOn amp =
        (Query.jsObjectKeysOrder (m.map (fun p => (p.1, some p.2)))).map
          (fun p => p.1 ++ eqc :: Query.jsTemplate p.2) := by
      show (List.intercalate [amp] _).splitOn amp = _
      apply List.splitOn_intercalate
      · exact hxfree
      · exact hKne
    have hvals : ∀ p ∈ Query.jsObjectKeysOrder (m.map (fun p => (p.1, some p.2))),
        ∃ v, p.2 = some v ∧ eqc ∉ p.1 ∧ eqc ∉ v := by
      intro p hp
      obtain ⟨r, hr, rfl⟩ := hKmem p hp
      exact ⟨r.2, rfl, (hfree r hr).2.1, (hfree r hr).2.2.2⟩
    have hparseK : Query.parser (Query.toString (m.map (fun p => (p.1, some p.2)))) =
        Query.jsObjectKeysOrder (m.map (fun p => (p.1, some p.2))) := by
      unfold Query.parser
      rw [hsplitK]
      have := parserStep_foldl_fresh_obj
        (Query.jsObjectKeysOrder (m.map (fun p => (p.1, some p.2)))) []
        hnodupK hvals (by intro p _ q hq; simp at hq)
      simpa using this
    have hsplit : (List.intercalate [amp] (m.map (fun p => p.1 ++ eqc :: p.2))).splitOn amp
        = m.map (fun p => p.1 ++ eqc :: p.2) := by
      apply List.splitOn_intercalate
      · intro l hl
        rcases List.mem_map.mp hl with ⟨p, hp, rfl⟩
        obtain ⟨h1, _, h3, _⟩ := hfree p hp
        intro hmem
        rcases List.mem_append.mp hmem with hmk | hmv
        · exact h1 hmk
        · rcases List.mem_cons.mp hmv with heqamp | hmv2
          · exact absurd heqamp (by decide)
          · exact h3 hmv2
      · simpa using hm
    refine ⟨?_, ?_, ?_⟩
    · rw [hparseK]
      exact hperm
    · intro k
      rw [hparseK]
      exact getAttribute_eq_of_perm hperm hnodupK k
    · have hparseS : Query.parser (List.intercalate [amp]
          (m.map (fun p => p.1 ++ eqc :: p.2))) = m.map (fun p => (p.1, some p.2)) := by
        unfold Query.parser
        rw [hsplit]
        have := parserStep_foldl_fresh m [] hnodup
          (fun p hp => ⟨(hfree p hp).2.1, (hfree p hp).2.2.2⟩)
          (by intro p _ q hq; simp at hq)
        simpa using this
      rw [hparseS, hsplitK, hsplit]
      have hMsegs : (m.map (fun p => (p.1, some p.2))).map
          (fun p => p.1 ++ eqc :: Query.jsTemplate p.2) =
          m.map (fun p => p.1 ++ eqc :: p.2) := by
        rw [List.map_map]
        rfl
      rw [← hMsegs]
      exact hperm.map (fun p => p.1 ++ eqc :: Query.jsTemplate p.2)

/-- C1 counterexample: the string `a=1&a=2` has clean tokens, yet
`serialize (parse s)` is `a=2`, which does not contain the key/value pair
`a=1` that `s` contains — the set-equivalence sentence of the claim fails
for duplicate keys. -/
theorem C1_counterexample :
    Query.toString (Query.parser (("a=1&a=2").toList)) = ("a=2").toList ∧
    ("a=1").toList ∈ (("a=1&a=2").toList).splitOn amp ∧
    ("a=1").toList ∉ ((("a=2").toList).splitOn amp) := by decide

/-- Witness for C1 at the mapping `[b=1, 2=x]`, whose serialization
reorders the integer-like key `2` first. -/
theorem C1_roundtrip_witness :
    (Query.parser (Query.toString
        (([(("b").toList, ("1").toList), (("2").toList, ("x").toList)]).map
          (fun p => (p.1, some p.2))))).Perm
      (([(("b").toList, ("1").toList), (("2").toList, ("x").toList)]).map
        (fun p => (p.1, some p.2))) ∧
    (∀ k, Query.getAttribute
        (Query.parser (Query.toString
          (([(("b").toList, ("1").toList), (("2").toList, ("x").toList)]).map
            (fun p => (p.1, some p.2))))) k =
      Query.getAttribute
        (([(("b").toList, ("1").toList), (("2").toList, ("x").toList)]).map
          (fun p => (p.1, some p.2))) k) ∧
    ((Query.toString (Query.parser (List.intercalate [amp]
        (([(("b").toList, ("1").toList), (("2").toList, ("x").toList)]).map
          (fun p => p.1 ++ eqc :: p.2))))).splitOn amp).Perm
      ((List.intercalate [amp]
        (([(("b").toList, ("1").toList), (("2").toList, ("x").toList)]).map
          (fun p => p.1 ++ eqc :: p.2))).splitOn amp) :=
  C1_roundtrip [(("b").toList, ("1").toList), (("2").toList, ("x").toList)]
    (by decide) (by decide)

/-! ### Lemmas about the document operations -/

theorem listModify_length {α : Type} (f : α → α) :
    ∀ (l : List α) (j : Nat), (listModify l j f).length = l.length := by
  intro l
  induction l with
  | nil =>
    intro j
    rfl
  | cons x rest ih =>
    intro j
    cases j with
    | zero => rfl
    | succ j' => simp [listModify, ih j']

theorem listModify_get? {α : Type} (f : α → α) :
    ∀ (l : List α) (j k : Nat),
      (listModify l j f).get? k = if k = j then (l.get? j).map f else l.get? k := by
  intro l
  induction l with
  | nil =>
    intro j k
    simp only [listModify]
    split <;> simp
  | cons x rest ih =>
    intro j k
    cases j with
    | zero =>
      cases k with
      | zero => simp [listModify]
      | succ k' => simp [listModify]
    | succ j' =>
      cases k with
      | zero => simp [listModify]
      | succ k' => simpa [listModify] using ih j' k'

theorem length_modifyClassesAt (d : Doc) (j : Nat) (g : List Str → List Str) :
    (modifyClassesAt d j g).elems.length = d.elems.length :=
  listModify_length _ d.elems j

theorem length_hide (d : Doc) (c : Str) :
    (hideMutationsWithClassName d c).elems.length = d.elems.length := by
  simp [hideMutationsWithClassName]

theorem length_unselect (d : Doc) :
    (unselectTbodys d).elems.length = d.elems.length := by
  simp [unselectTbodys]

theorem classesAt_modify_ne (d : Doc) (j : Nat) (g : List Str → List Str)
    (k : Nat) (h : k ≠ j) :
    classesAt (modifyClassesAt d j g) k = classesAt d k := by
  unfold classesAt modifyClassesAt modifyAt
  rw [listModify_get?, if_neg h]

theorem classesAt_modify_self (d : Doc) (j : Nat) (g : List Str → List Str)
    (h : j < d.elems.length) :
    classesAt (modifyClassesAt d j g) j = g (classesAt d j) := by
  unfold classesAt modifyClassesAt modifyAt
  rw [listModify_get?, if_pos rfl]
  cases hg : d.elems.get? j with
  | none =>
    rw [List.get?_eq_none] at hg
    omega
  | some e => simp

theorem tagAt_modify (d : Doc) (j : Nat) (g : List Str → List Str) (k : Nat) :
    tagAt (modifyClassesAt d j g) k = tagAt d k := by
  unfold tagAt modifyClassesAt modifyAt
  rw [listModify_get?]
  by_cases h : k = j
  · subst h
    rw [if_pos rfl]
    cases hg : d.elems.get? k <;> simp
  · rw [if_neg h]

theorem idAt_modify (d : Doc) (j : Nat) (g : List Str → List Str) (k : Nat) :
    idAt (modifyClassesAt d j g) k = idAt d k := by
  unfold idAt modifyClassesAt modifyAt
  rw [listModify_get?]
  by_cases h : k = j
  · subst h
    rw [if_pos rfl]
    cases hg : d.elems.get? k <;> simp
  · rw [if_neg h]

theorem classesAt_hide (d : Doc) (c : Str) (j : Nat) :
    classesAt (hideMutationsWithClassName d c) j =
      if c ∈ classesAt d j then classAdd (classesAt d j) hiddenClass
      else classesAt d j := by
  unfold classesAt hideMutationsWithClassName
  show (((d.elems.map _).get? j).map _).getD [] = _
  rw [List.get?_map]
  cases hg : d.elems.get? j with
  | none => simp
  | some e =>
    by_cases hc : c ∈ e.classList <;> simp [hc]

theorem tagAt_hide (d : Doc) (c : Str) (j : Nat) :
    tagAt (hideMutationsWithClassName d c) j = tagAt d j := by
  unfold tagAt hideMutationsWithClassName
  show (((d.elems.map _).get? j).map _).getD [] = _
  rw [List.get?_map]
  cases hg : d.elems.get? j with
  | none => simp
  | some e =>
    by_cases hc : c ∈ e.classList <;> simp [hc]

theorem idAt_hide (d : Doc) (c : Str) (j : Nat) :
    idAt (hideMutationsWithClassName d c) j = idAt d j := by
  unfold idAt hideMutationsWithClassName
  show (((d.elems.map _).get? j).map _).getD [] = _
  rw [List.get?_map]
  cases hg : d.elems.get? j with
  | none => simp
  | some e =>
    by_cases hc : c ∈ e.classList <;> simp [hc]

theorem classesAt_unselect (d : Doc) (j : Nat) :
    classesAt (unselectTbodys d) j =
      if tagAt d j = tbodyTag then classRemove (classesAt d j) selectedClass
      else classesAt d j := by
  unfold classesAt unselectTbodys tagAt
  show (((d.elems.map _).get? j).map _).getD [] = _
  rw [List.get?_map]
  cases hg : d.elems.get? j with
  | none =>
    have : (([] : Str) = tbodyTag) = False := by
      simp only [eq_iff_iff, iff_false]
      decide
    simp [this]
  | some e =>
    by_cases ht : e.tag = tbodyTag <;> simp [ht]

theorem tagAt_unselect (d : Doc) (j : Nat) :
    tagAt (unselectTbodys d) j = tagAt d j := by
  unfold tagAt unselectTbodys
  show (((d.elems.map _).get? j).map _).getD [] = _
  rw [List.get?_map]
  cases hg : d.elems.get? j with
  | none => simp
  | some e =>
    by_cases ht : e.tag = tbodyTag <;> simp [ht]

theorem idAt_unselect (d : Doc) (j : Nat) :
    idAt (unselectTbodys d) j = idAt d j := by
  unfold idAt unselectTbodys
  show (((d.elems.map _).get? j).map _).getD [] = _
  rw [List.get?_map]
  cases hg : d.elems.get? j with
  | none => simp
  | some e =>
    by_cases ht : e.tag = tbodyTag <;> simp [ht]

theorem mem_classAdd_self (l : List Str) (c : Str) : c ∈ classAdd l c := by
  by_cases h : c ∈ l <;> simp [classAdd, h]

theorem mem_classAdd_iff (l : List Str) (c x : Str) :
    x ∈ classAdd l c ↔ x ∈ l ∨ x = c := by
  by_cases h : c ∈ l
  · simp only [classAdd, if_pos h]
    constructor
    · exact Or.inl
    · rintro (hx | rfl)
      · exact hx
      · exact h
  · simp [classAdd, if_neg h]

theorem mem_classRemove_iff (l : List Str) (c x : Str) :
    x ∈ classRemove l c ↔ x ∈ l ∧ x ≠ c := by
  simp [classRemove]

theorem filter_classAdd (l : List Str) (c : Str) :
    (classAdd l c).filter (fun x => x ≠ c) = l.filter (fun x => x ≠ c) := by
  by_cases h : c ∈ l
  · simp [classAdd, h]
  · simp [classAdd, h, List.filter_append]

theorem filter_classRemove (l : List Str) (c : Str) :
    (classRemove l c).filter (fun x => x ≠ c) = l.filter (fun x => x ≠ c) := by
  simp [classRemove, List.filter_filter]

theorem lt_length_of_mem_classesAt {d : Doc} {j : Nat} {c : Str}
    (h : c ∈ classesAt d j) : j < d.elems.length := by
  by_contra hlt
  push_neg at hlt
  have hz : d.elems.get? j = none := List.get?_eq_none.mpr hlt
  unfold classesAt at h
  rw [hz] at h
  simp at h

theorem lt_length_of_tagAt_tbody {d : Doc} {j : Nat}
    (h : tagAt d j = tbodyTag) : j < d.elems.length := by
  by_contra hlt
  push_neg at hlt
  have hz : d.elems.get? j = none := List.get?_eq_none.mpr hlt
  unfold tagAt at h
  rw [hz] at h
  have hne : ¬(([] : Str) = tbodyTag) := by decide
  exact hne h

/-- Evaluation of `openMutation` in the found-and-already-visible branch:
only `selected` bookkeeping happens. -/
theorem openMutation_found_visible (d : Doc) (mid fp : Str) (idx : Nat)
    (hfound : getElementById d mid = some idx)
    (hvis : hiddenClass ∉ classesAt d idx) :
    openMutation d mid fp =
      (modifyClassesAt (unselectTbodys d) idx (fun l => classAdd l selectedClass), []) := by
  unfold openMutation openMutationGen openMutationTryBody
  rw [hfound]
  dsimp only
  rw [if_neg hvis]
  rfl

/-- C2 (code_bug): with no element carrying the requested id and
`autoRedirect = true`, exactly one navigation occurs, but its target URL is
`foo.html?0=undefined` rather than the claimed `foo.html?mutation_id=42`:
`openFile` iterates `for (let key in Object.keys(params))`, which visits
the index string "0" of the keys array instead of the key itself, and
`params["0"]` is `undefined`. -/
theorem C2_navigation_target :
    openMutation ⟨[]⟩ (("42").toList) (("foo.html").toList) =
      (⟨[]⟩, [("foo.html?0=undefined").toList]) ∧
    (("foo.html?0=undefined").toList : Str) ≠ ("foo.html?mutation_id=42").toList :=
  ⟨by decide, by decide⟩

/-- C3 (confirmed): `openMutation` never lets an exception escape — the
whole-function embedding always returns `.ok` — every failure of the try
body (lookup miss or any later error, here a scroll failure) is routed to
the single catch (not-found) path, and with `autoRedirect = false` and no
matching element no navigation occurs and the document is untouched. -/
theorem C3_exception_containment (scrollOk autoscroll autoRedirect : Bool)
    (d : Doc) (mid fp : Str) :
    (∃ r, openMutationJS scrollOk d mid fp autoscroll autoRedirect = Except.ok r) ∧
    (∀ dErr, openMutationTryBody scrollOk d mid autoscroll = Except.error dErr →
      openMutationGen scrollOk d mid fp autoscroll autoRedirect =
        openMutationCatch dErr mid fp autoRedirect) ∧
    (getElementById d mid = none →
      openMutationGen scrollOk d mid fp autoscroll false = (d, [])) := by
  refine ⟨?_, ?_, ?_⟩
  · unfold openMutationJS
    cases h : openMutationTryBody scrollOk d mid autoscroll with
    | ok dOk => exact ⟨(dOk, []), rfl⟩
    | error dErr => exact ⟨openMutationCatch dErr mid fp autoRedirect, rfl⟩
  · intro dErr h
    unfold openMutationGen
    rw [h]
  · intro h
    unfold openMutationGen openMutationTryBody
    rw [h]
    rfl

/-- Witness for C3 with a failing scroll on the empty document. -/
theorem C3_exception_containment_witness :
    (∃ r, openMutationJS false ⟨[]⟩ (("m").toList) (("f").toList) true true =
      Except.ok r) ∧
    (∀ dErr, openMutationTryBody false ⟨[]⟩ (("m").toList) true = Except.error dErr →
      openMutationGen false ⟨[]⟩ (("m").toList) (("f").toList) true true =
        openMutationCatch dErr (("m").toList) (("f").toList) true) ∧
    (getElementById ⟨[]⟩ (("m").toList) = none →
      openMutationGen false ⟨[]⟩ (("m").toList) (("f").toList) true false = (⟨[]⟩, [])) :=
  C3_exception_containment false true true ⟨[]⟩ (("m").toList) (("f").toList)

/-- C4 (confirmed): among the elements sharing the marker class, the
hide-all-then-reveal-chosen sequence leaves exactly the chosen member
visible. -/
theorem C4_selectOnly_unique_visible (d : Doc) (c : Str) (idx : Nat)
    (hmem : c ∈ classesAt d idx) :
    ∀ j < d.elems.length, c ∈ classesAt d j →
      (hiddenClass ∉ classesAt (selectOnly d c idx) j ↔ j = idx) := by
  intro j hj hcj
  have hidx : idx < d.elems.length := lt_length_of_mem_classesAt hmem
  unfold selectOnly
  by_cases hji : j = idx
  · subst hji
    rw [classesAt_modify_self _ _ _ (by rw [length_hide]; exact hidx)]
    simp [mem_classRemove_iff]
  · rw [classesAt_modify_ne _ _ _ _ hji]
    rw [classesAt_hide, if_pos hcj]
    simp [mem_classAdd_iff, hji]

/-- Witness for C4 on a three-member group, chosen member 1. -/
theorem C4_selectOnly_unique_visible_witness :
    (hiddenClass ∉ classesAt
        (selectOnly ⟨[⟨("a").toList, tbodyTag, [("g1").toList]⟩,
           ⟨("b").toList, tbodyTag, [("g1").toList, hiddenClass]⟩,
           ⟨("c").toList, tbodyTag, [("g1").toList]⟩]⟩ (("g1").toList) 1) 0 ↔
      (0 : Nat) = 1) ∧
    (hiddenClass ∉ classesAt
        (selectOnly ⟨[⟨("a").toList, tbodyTag, [("g1").toList]⟩,
           ⟨("b").toList, tbodyTag, [("g1").toList, hiddenClass]⟩,
           ⟨("c").toList, tbodyTag, [("g1").toList]⟩]⟩ (("g1").toList) 1) 1 ↔
      (1 : Nat) = 1) ∧
    (hiddenClass ∉ classesAt
        (selectOnly ⟨[⟨("a").toList, tbodyTag, [("g1").toList]⟩,
           ⟨("b").toList, tbodyTag, [("g1").toList, hiddenClass]⟩,
           ⟨("c").toList, tbodyTag, [("g1").toList]⟩]⟩ (("g1").toList) 1) 2 ↔
      (2 : Nat) = 1) :=
  ⟨C4_selectOnly_unique_visible _ (("g1").toList) 1 (by decide) 0 (by decide) (by decide),
   C4_selectOnly_unique_visible _ (("g1").toList) 1 (by decide) 1 (by decide) (by decide),
   C4_selectOnly_unique_visible _ (("g1").toList) 1 (by decide) 2 (by decide) (by decide)⟩

/-- C6 (confirmed): when an element with the requested id exists and is not
hidden, `openMutation` performs no navigation, and afterwards that element
is the unique `tbody` row container carrying `selected`. -/
theorem C6_open_inline_selected (d : Doc) (mid fp : Str) (idx : Nat)
    (hfound : getElementById d mid = some idx)
    (hvis : hiddenClass ∉ classesAt d idx)
    (htag : tagAt d idx = tbodyTag) :
    (openMutation d mid fp).2 = [] ∧
    ∀ j < (openMutation d mid fp).1.elems.length,
      tagAt (openMutation d mid fp).1 j = tbodyTag →
      (selectedClass ∈ classesAt (openMutation d mid fp).1 j ↔ j = idx) := by
  rw [openMutation_found_visible d mid fp idx hfound hvis]
  refine ⟨rfl, ?_⟩
  intro j hj htagj
  have hidx : idx < d.elems.length := lt_length_of_tagAt_tbody htag
  by_cases hji : j = idx
  · subst hji
    rw [classesAt_modify_self _ _ _ (by rw [length_unselect]; exact hidx)]
    simp [mem_classAdd_iff]
  · rw [classesAt_modify_ne _ _ _ _ hji]
    have htagdj : tagAt d j = tbodyTag := by
      rw [tagAt_modify, tagAt_unselect] at htagj
      exact htagj
    rw [classesAt_unselect, if_pos htagdj]
    simp only [mem_classRemove_iff]
    constructor
    · rintro ⟨-, hne⟩
      exact absurd rfl hne
    · intro h
      exact absurd h hji

/-- Witness for C6 on a two-tbody document, opening the visible `m1`. -/
theorem C6_open_inline_selected_witness :
    (openMutation ⟨[⟨("m1").toList, tbodyTag, [("g1").toList]⟩,
        ⟨("m2").toList, tbodyTag, [("g1").toList, selectedClass]⟩]⟩
      (("m1").toList) (("f.html").toList)).2 = [] ∧
    ∀ j < (openMutation ⟨[⟨("m1").toList, tbodyTag, [("g1").toList]⟩,
        ⟨("m2").toList, tbodyTag, [("g1").toList, selectedClass]⟩]⟩
      (("m1").toList) (("f.html").toList)).1.elems.length,
      tagAt (openMutation ⟨[⟨("m1").toList, tbodyTag, [("g1").toList]⟩,
        ⟨("m2").toList, tbodyTag, [("g1").toList, selectedClass]⟩]⟩
        (("m1").toList) (("f.html").toList)).1 j = tbodyTag →
      (selectedClass ∈ classesAt (openMutation ⟨[⟨("m1").toList, tbodyTag, [("g1").toList]⟩,
        ⟨("m2").toList, tbodyTag, [("g1").toList, selectedClass]⟩]⟩
        (("m1").toList) (("f.html").toList)).1 j ↔ j = 0) :=
  C6_open_inline_selected _ (("m1").toList) (("f.html").toList) 0
    (by decide) (by decide) (by decide)

/-- C9 (confirmed): frame property of the inline-open path — when the
element exists and is visible, no `hidden` membership of any element changes,
tags, ids and the document length are untouched, the class lists change at
most in their `selected` tokens, and `selected` ends up exactly on the
target (and on any non-tbody element that already carried it, since only
tbody row containers are cleared). -/
theorem C9_frame_inline_open (d : Doc) (mid fp : Str) (idx : Nat)
    (hfound : getElementById d mid = some idx)
    (hvis : hiddenClass ∉ classesAt d idx) :
    (openMutation d mid fp).1.elems.length = d.elems.length ∧
    (∀ j < d.elems.length,
      tagAt (openMutation d mid fp).1 j = tagAt d j ∧
      idAt (openMutation d mid fp).1 j = idAt d j) ∧
    (∀ j < d.elems.length,
      (hiddenClass ∈ classesAt (openMutation d mid fp).1 j ↔
        hiddenClass ∈ classesAt d j)) ∧
    (∀ j < d.elems.length,
      (classesAt (openMutation d mid fp).1 j).filter (fun x => x ≠ selectedClass) =
        (classesAt d j).filter (fun x => x ≠ selectedClass)) ∧
    (∀ j < d.elems.length,
      (selectedClass ∈ classesAt (openMutation d mid fp).1 j ↔
        (j = idx ∨ (selectedClass ∈ classesAt d j ∧ tagAt d j ≠ tbodyTag)))) := by
  rw [openMutation_found_visible d mid fp idx hfound hvis]
  have hmod : ∀ j, classesAt
      (modifyClassesAt (unselectTbodys d) idx (fun l => classAdd l selectedClass)) j =
      if j = idx ∧ idx < d.elems.length
      then classAdd (classesAt (unselectTbodys d) j) selectedClass
      else classesAt (unselectTbodys d) j := by
    intro j
    by_cases hji : j = idx
    · subst hji
      by_cases hin : j < d.elems.length
      · rw [classesAt_modify_self _ _ _ (by rw [length_unselect]; exact hin),
          if_pos ⟨rfl, hin⟩]
      · rw [if_neg (by tauto)]
        unfold classesAt modifyClassesAt modifyAt
        rw [listModify_get?, if_pos rfl]
        have hz : (unselectTbodys d).elems.get? j = none := by
          rw [List.get?_eq_none, length_unselect]
          omega
        rw [hz]
        rfl
    · rw [classesAt_modify_ne _ _ _ _ hji, if_neg (by tauto)]
  have hhs : hiddenClass ≠ selectedClass := by decide
  refine ⟨?_, ?_, ?_, ?_, ?_⟩
  · rw [length_modifyClassesAt, length_unselect]
  · intro j _
    rw [tagAt_modify, tagAt_unselect, idAt_modify, idAt_unselect]
    exact ⟨rfl, rfl⟩
  · intro j _
    rw [hmod j, classesAt_unselect]
    by_cases hj' : j = idx ∧ idx < d.elems.length
    · rw [if_pos hj']
      by_cases ht : tagAt d j = tbodyTag
      · rw [if_pos ht]
        simp [mem_classAdd_iff, mem_classRemove_iff, hhs]
      · rw [if_neg ht]
        simp [mem_classAdd_iff, hhs]
    · rw [if_neg hj']
      by_cases ht : tagAt d j = tbodyTag
      · rw [if_pos ht]
        simp [mem_classRemove_iff, hhs]
      · rw [if_neg ht]
  · intro j _
    rw [hmod j, classesAt_unselect]
    by_cases hj' : j = idx ∧ idx < d.elems.length
    · rw [if_pos hj', filter_classAdd]
      by_cases ht : tagAt d j = tbodyTag
      · rw [if_pos ht, filter_classRemove]
      · rw [if_neg ht]
    · rw [if_neg hj']
      by_cases ht : tagAt d j = tbodyTag
      · rw [if_pos ht, filter_classRemove]
      · rw [if_neg ht]
  · intro j hj
    rw [hmod j, classesAt_unselect]
    by_cases hj' : j = idx ∧ idx < d.elems.length
    · obtain ⟨rfl, hin⟩ := hj'
      rw [if_pos ⟨rfl, hin⟩]
      simp [mem_classAdd_iff]
    · rw [if_neg hj']
      have hji : j ≠ idx := fun h => hj' ⟨h, h ▸ hj⟩
      by_cases ht : tagAt d j = tbodyTag
      · rw [if_pos ht]
        simp [mem_classRemove_iff, hji, ht]
      · rw [if_neg ht]
        simp [hji, ht]

/-- Witness for C9 on a document with a visible target, a selected sibling
tbody, and a selected non-tbody element. -/
theorem C9_frame_inline_open_witness :
    (openMutation ⟨[⟨("m1").toList, tbodyTag, [("g1").toList]⟩,
        ⟨("m2").toList, tbodyTag, [("g1").toList, selectedClass]⟩,
        ⟨("d1").toList, ("div").toList, [selectedClass]⟩]⟩
      (("m1").toList) (("f.html").toList)).1.elems.length =
      (⟨[⟨("m1").toList, tbodyTag, [("g1").toList]⟩,
        ⟨("m2").toList, tbodyTag, [("g1").toList, selectedClass]⟩,
        ⟨("d1").toList, ("div").toList, [selectedClass]⟩]⟩ : Doc).elems.length ∧
    (∀ j < (⟨[⟨("m1").toList, tbodyTag, [("g1").toList]⟩,
        ⟨("m2").toList, tbodyTag, [("g1").toList, selectedClass]⟩,
        ⟨("d1").toList, ("div").toList, [selectedClass]⟩]⟩ : Doc).elems.length,
      tagAt (openMutation ⟨[⟨("m1").toList, tbodyTag, [("g1").toList]⟩,
        ⟨("m2").toList, tbodyTag, [("g1").toList, selectedClass]⟩,
        ⟨("d1").toList, ("div").toList, [selectedClass]⟩]⟩
        (("m1").toList) (("f.html").toList)).1 j =
        tagAt ⟨[⟨("m1").toList, tbodyTag, [("g1").toList]⟩,
        ⟨("m2").toList, tbodyTag, [("g1").toList, selectedClass]⟩,
        ⟨("d1").toList, ("div").toList, [selectedClass]⟩]⟩ j ∧
      idAt (openMutation ⟨[⟨("m1").toList, tbodyTag, [("g1").toList]⟩,
        ⟨("m2").toList, tbodyTag, [("g1").toList, selectedClass]⟩,
        ⟨("d1").toList, ("div").toList, [selectedClass]⟩]⟩
        (("m1").toList) (("f.html").toList)).1 j =
        idAt ⟨[⟨("m1").toList, tbodyTag, [("g1").toList]⟩,
        ⟨("m2").toList, tbodyTag, [("g1").toList, selectedClass]⟩,
        ⟨("d1").toList, ("div").toList, [selectedClass]⟩]⟩ j) ∧
    (∀ j < (⟨[⟨("m1").toList, tbodyTag, [("g1").toList]⟩,
        ⟨("m2").toList, tbodyTag, [("g1").toList, selectedClass]⟩,
        ⟨("d1").toList, ("div").toList, [selectedClass]⟩]⟩ : Doc).elems.length,
      (hiddenClass ∈ classesAt (openMutation ⟨[⟨("m1").toList, tbodyTag, [("g1").toList]⟩,
        ⟨("m2").toList, tbodyTag, [("g1").toList, selectedClass]⟩,
        ⟨("d1").toList, ("div").toList, [selectedClass]⟩]⟩
        (("m1").toList) (("f.html").toList)).1 j ↔
        hiddenClass ∈ classesAt ⟨[⟨("m1").toList, tbodyTag, [("g1").toList]⟩,
        ⟨("m2").toList, tbodyTag, [("g1").toList, selectedClass]⟩,
        ⟨("d1").toList, ("div").toList, [selectedClass]⟩]⟩ j)) ∧
    (∀ j < (⟨[⟨("m1").toList, tbodyTag, [("g1").toList]⟩,
        ⟨("m2").toList, tbodyTag, [("g1").toList, selectedClass]⟩,
        ⟨("d1").toList, ("div").toList, [selectedClass]⟩]⟩ : Doc).elems.length,
      (classesAt (openMutation ⟨[⟨("m1").toList, tbodyTag, [("g1").toList]⟩,
        ⟨("m2").toList, tbodyTag, [("g1").toList, selectedClass]⟩,
        ⟨("d1").toList, ("div").toList, [selectedClass]⟩]⟩
        (("m1").toList) (("f.html").toList)).1 j).filter (fun x => x ≠ selectedClass) =
        (classesAt ⟨[⟨("m1").toList, tbodyTag, [("g1").toList]⟩,
        ⟨("m2").toList, tbodyTag, [("g1").toList, selectedClass]⟩,
        ⟨("d1").toList, ("div").toList, [selectedClass]⟩]⟩ j).filter
          (fun x => x ≠ selectedClass)) ∧
    (∀ j < (⟨[⟨("m1").toList, tbodyTag, [("g1").toList]⟩,
        ⟨("m2").toList, tbodyTag, [("g1").toList, selectedClass]⟩,
        ⟨("d1").toList, ("div").toList, [selectedClass]⟩]⟩ : Doc).elems.length,
      (selectedClass ∈ classesAt (openMutation ⟨[⟨("m1").toList, tbodyTag, [("g1").toList]⟩,
        ⟨("m2").toList, tbodyTag, [("g1").toList, selectedClass]⟩,
        ⟨("d1").toList, ("div").toList, [selectedClass]⟩]⟩
        (("m1").toList) (("f.html").toList)).1 j ↔
        (j = 0 ∨ (selectedClass ∈ classesAt ⟨[⟨("m1").toList, tbodyTag, [("g1").toList]⟩,
        ⟨("m2").toList, tbodyTag, [("g1").toList, selectedClass]⟩,
        ⟨("d1").toList, ("div").toList, [selectedClass]⟩]⟩ j ∧
          tagAt ⟨[⟨("m1").toList, tbodyTag, [("g1").toList]⟩,
        ⟨("m2").toList, tbodyTag, [("g1").toList, selectedClass]⟩,
        ⟨("d1").toList, ("div").toList, [selectedClass]⟩]⟩ j ≠ tbodyTag)))) :=
  C9_frame_inline_open _ (("m1").toList) (("f.html").toList) 0 (by decide) (by decide)

theorem exactSearch_iff (q : Str) (r : SearchRow) :
    exactSearch q r = true ↔
      (q <:+: r.dataFilePath ∨ q <:+: (r.firstChildClasses.getLastD []) ∨
       q <:+: r.secondChildText ∨ q <:+: r.thirdChildText) := by
  simp only [exactSearch, jsIncludes, Bool.or_eq_true, decide_eq_true_eq]
  tauto

/-- C7 (confirmed): with `useRegex = false`, after `search` a searchable
row is visible (no `hidden` class) iff at least one of its four designated
fields — the `data-file-path` attribute, the trailing class token of the
first child, and the texts of the second and third children — contains the
query as an exact substring; every row matching none of them is hidden. -/
theorem C7_exact_search_filter (test : Str → Str → Bool) (q : Str)
    (rows : List SearchRow) (hwf : ∀ r ∈ rows, r.firstChildClasses ≠ []) :
    (search test q false rows).length = rows.length ∧
    ∀ j < rows.length,
      (hiddenClass ∉ ((search test q false rows).getD j emptySearchRow).classes ↔
        (q <:+: (rows.getD j emptySearchRow).dataFilePath ∨
         q <:+: ((rows.getD j emptySearchRow).firstChildClasses.getLastD []) ∨
         q <:+: (rows.getD j emptySearchRow).secondChildText ∨
         q <:+: (rows.getD j emptySearchRow).thirdChildText)) := by
  refine ⟨by simp [search], ?_⟩
  intro j hj
  cases hr : rows[j]? with
  | none =>
    rw [List.getElem?_eq_none_iff] at hr
    omega
  | some r =>
    have hs : (search test q false rows).getD j emptySearchRow =
        if exactSearch q r then { r with classes := classRemove r.classes hiddenClass }
        else { r with classes := classAdd r.classes hiddenClass } := by
      unfold search
      rw [List.getD_eq_getElem?_getD, List.getElem?_map, hr]
      simp
    rw [hs, List.getD_eq_getElem?_getD, hr]
    by_cases he : exactSearch q r = true
    · rw [if_pos he]
      simp only [Option.getD_some]
      constructor
      · intro _
        exact (exactSearch_iff q r).mp he
      · intro _
        simp [mem_classRemove_iff]
    · rw [if_neg he]
      simp only [Option.getD_some]
      constructor
      · intro hmemn
        exact absurd (mem_classAdd_self r.classes hiddenClass) hmemn
      · intro hdisj
        exact absurd ((exactSearch_iff q r).mpr hdisj) he

/-- C5 counterexample: collapsing a 20-row classless block hides 10 rows,
not the 9 rows (indices 5..13) the claim states; and after invoking the
expand affordance the block still holds 21 child rows — the affordance row
is not removed from the block (only its clickable cell is). -/
theorem C5_counterexample :
    ((collapseSection ⟨[], List.replicate 20 ⟨[], []⟩⟩).rows.filter
      (fun r => r.display = noneDisplay)).length = 10 ∧
    ¬((10 : Nat) = 9) ∧
    (expandCallback (collapseSection ⟨[], List.replicate 20 ⟨[], []⟩⟩) 14).rows.length = 21 ∧
    ¬((21 : Nat) = 20) := by decide

/-- C5 (corrected, amended): collapsing a classless block of exactly 20
rows hides the rows with 0-based indices 5 through 14 inclusive (the loop
runs to `i <= length - 6`, which is 14) and inserts exactly one
expand-affordance row, before the last hidden row; invoking the affordance
resets every child of the block — the 20 original rows and the affordance
row — to default visibility and removes only the clickable
`expand-button` cell, so the affordance row itself (now two empty marker
cells) stays in the block. -/
theorem C5_collapse_twenty (r0 r1 r2 r3 r4 r5 r6 r7 r8 r9 r10 r11 r12 r13
    r14 r15 r16 r17 r18 r19 : Tr) :
    collapseSection ⟨[], [r0, r1, r2, r3, r4, r5, r6, r7, r8, r9, r10, r11,
        r12, r13, r14, r15, r16, r17, r18, r19]⟩ =
      ⟨[], [r0, r1, r2, r3, r4,
            { r5 with display := noneDisplay }, { r6 with display := noneDisplay },
            { r7 with display := noneDisplay }, { r8 with display := noneDisplay },
            { r9 with display := noneDisplay }, { r10 with display := noneDisplay },
            { r11 with display := noneDisplay }, { r12 with display := noneDisplay },
            { r13 with display := noneDisplay },
            getExpandButtonRow,
            { r14 with display := noneDisplay },
            r15, r16, r17, r18, r19]⟩ ∧
    expandCallback (collapseSection ⟨[], [r0, r1, r2, r3, r4, r5, r6, r7, r8,
        r9, r10, r11, r12, r13, r14, r15, r16, r17, r18, r19]⟩) 14 =
      ⟨[], [{ r0 with display := ([] : Str) }, { r1 with display := ([] : Str) },
            { r2 with display := ([] : Str) }, { r3 with display := ([] : Str) },
            { r4 with display := ([] : Str) }, { r5 with display := ([] : Str) },
            { r6 with display := ([] : Str) }, { r7 with display := ([] : Str) },
            { r8 with display := ([] : Str) }, { r9 with display := ([] : Str) },
            { r10 with display := ([] : Str) }, { r11 with display := ([] : Str) },
            { r12 with display := ([] : Str) }, { r13 with display := ([] : Str) },
            ⟨[], [⟨[detectionStatusClass, newClass], []⟩,
                  ⟨[numbersClass, newClass], []⟩]⟩,
            { r14 with display := ([] : Str) }, { r15 with display := ([] : Str) },
            { r16 with display := ([] : Str) }, { r17 with display := ([] : Str) },
            { r18 with display := ([] : Str) }, { r19 with display := ([] : Str) }]⟩ :=
  ⟨rfl, rfl⟩

/-- Witness for C7: the query `abc` matched by the file path of the first
row only; the second row (previously visible) becomes hidden. -/
theorem C7_exact_search_filter_witness :
    (search (fun _ _ => false) (("abc").toList) false
      [{ emptySearchRow with
          dataFilePath := ("src/abc.rs").toList
          firstChildClasses := [("x").toList] },
       { emptySearchRow with
          dataFilePath := ("src/def.rs").toList
          firstChildClasses := [("y").toList] }]).length =
      ([{ emptySearchRow with
          dataFilePath := ("src/abc.rs").toList
          firstChildClasses := [("x").toList] },
        { emptySearchRow with
          dataFilePath := ("src/def.rs").toList
          firstChildClasses := [("y").toList] }] : List SearchRow).length ∧
    ∀ j < ([{ emptySearchRow with
          dataFilePath := ("src/abc.rs").toList
          firstChildClasses := [("x").toList] },
        { emptySearchRow with
          dataFilePath := ("src/def.rs").toList
          firstChildClasses := [("y").toList] }] : List SearchRow).length,
      (hiddenClass ∉ ((search (fun _ _ => false) (("abc").toList) false
          [{ emptySearchRow with
              dataFilePath := ("src/abc.rs").toList
              firstChildClasses := [("x").toList] },
           { emptySearchRow with
              dataFilePath := ("src/def.rs").toList
              firstChildClasses := [("y").toList] }]).getD j emptySearchRow).classes ↔
        ((("abc").toList : Str) <:+:
          (([{ emptySearchRow with
              dataFilePath := ("src/abc.rs").toList
              firstChildClasses := [("x").toList] },
            { emptySearchRow with
              dataFilePath := ("src/def.rs").toList
              firstChildClasses := [("y").toList] }] : List SearchRow).getD j
                emptySearchRow).dataFilePath ∨
         (("abc").toList : Str) <:+:
          ((([{ emptySearchRow with
              dataFilePath := ("src/abc.rs").toList
              firstChildClasses := [("x").toList] },
            { emptySearchRow with
              dataFilePath := ("src/def.rs").toList
              firstChildClasses := [("y").toList] }] : List SearchRow).getD j
                emptySearchRow).firstChildClasses.getLastD []) ∨
         (("abc").toList : Str) <:+:
          (([{ emptySearchRow with
              dataFilePath := ("src/abc.rs").toList
              firstChildClasses := [("x").toList] },
            { emptySearchRow with
              dataFilePath := ("src/def.rs").toList
              firstChildClasses := [("y").toList] }] : List SearchRow).getD j
                emptySearchRow).secondChildText ∨
         (("abc").toList : Str) <:+:
          (([{ emptySearchRow with
              dataFilePath := ("src/abc.rs").toList
              firstChildClasses := [("x").toList] },
            { emptySearchRow with
              dataFilePath := ("src/def.rs").toList
              firstChildClasses := [("y").toList] }] : List SearchRow).getD j
                emptySearchRow).thirdChildText)) :=
  C7_exact_search_filter (fun _ _ => false) (("abc").toList)
    [{ emptySearchRow with
        dataFilePath := ("src/abc.rs").toList
        firstChildClasses := [("x").toList] },
     { emptySearchRow with
        dataFilePath := ("src/def.rs").toList
        firstChildClasses := [("y").toList] }] (by decide)

/-- Witness for C10 at the segment `flag`. -/
theorem C10_undefined_value_witness :
    Query.parser (("flag").toList) = [(("flag").toList, none)] ∧
    Query.getAttribute (Query.parser (("flag").toList)) (("flag").toList) = none ∧
    Query.getAttribute [] (("flag").toList) = none ∧
    Query.toString (Query.parser (("flag").toList)) =
      ("flag").toList ++ eqc :: ("undefined").toList :=
  C10_undefined_value (("flag").toList) (by decide) (by decide) (by decide)
